import Mathlib

/-!
Verification development for the hospital-imaging roster engine
(`scheduler` package: `calendar_pl.py`, `domain.py`, `demand.py`,
`constraints_hard.py`, `constraints_soft.py`, `solver.py`).

The Python modules are embedded shallowly: dates become explicit
year/month/day triples, clock times become minutes after midnight,
floats become rationals, the CP-SAT model is represented by the set of
constraints it would contain (decision-variable keys, emitted
inequality families, objective terms), and the external solver is an
oracle parameter (a status plus a valuation of the decision variables).
-/

set_option maxRecDepth 10000

namespace Scheduler

/-- A calendar date, mirroring Python's `datetime.date` triple. -/
structure Date where
  y : Nat
  m : Nat
  d : Nat
deriving DecidableEq, Repr

/-- Gregorian leap-year rule. -/
def isLeap (y : Nat) : Bool :=
  (y % 4 == 0 && y % 100 != 0) || y % 400 == 0

/-- Length of a month in the proleptic Gregorian calendar. -/
def daysInMonth (y m : Nat) : Nat :=
  if m = 1 then 31 else if m = 2 then (if isLeap y then 29 else 28)
  else if m = 3 then 31 else if m = 4 then 30 else if m = 5 then 31
  else if m = 6 then 30 else if m = 7 then 31 else if m = 8 then 31
  else if m = 9 then 30 else if m = 10 then 31 else if m = 11 then 30
  else if m = 12 then 31 else 0

/-- Days in the years before `y` (proleptic Gregorian). -/
def daysBeforeYear (y : Nat) : Nat :=
  365 * (y - 1) + (y - 1) / 4 - (y - 1) / 100 + (y - 1) / 400

/-- Days in the months of year `y` strictly before month `m`. -/
def daysBeforeMonth (y m : Nat) : Nat :=
  ((List.range (m - 1)).map (fun i => daysInMonth y (i + 1))).sum

/-- Proleptic-Gregorian ordinal of a date, with `0001-01-01` mapped to `1`,
exactly as Python's `date.toordinal`. -/
def toOrdinal (d : Date) : Nat :=
  daysBeforeYear d.y + daysBeforeMonth d.y d.m + d.d

/-- Python's `date.weekday`: Monday is `0`, Sunday is `6`.
Ordinal `1` (0001-01-01) is a Monday. -/
def weekday (d : Date) : Nat :=
  (toOrdinal d + 6) % 7

/-- `calendar_pl.is_weekend`: Saturday or Sunday. -/
def is_weekend (d : Date) : Bool :=
  weekday d ≥ 5

/-- The day after `d` (`date + timedelta(days=1)`). -/
def nextDay (d : Date) : Date :=
  if d.d < daysInMonth d.y d.m then ⟨d.y, d.m, d.d + 1⟩
  else if d.m < 12 then ⟨d.y, d.m + 1, 1⟩
  else ⟨d.y + 1, 1, 1⟩

/-- `date + timedelta(days=n)`. -/
def addDays : Date → Nat → Date
  | d, 0 => d
  | d, n + 1 => addDays (nextDay d) n

/-- `calendar_pl._easter_sunday`: the Anonymous Gregorian (Butcher) Easter
algorithm, computed over `Int` with floor division and Euclidean remainder
to match Python's `//` and `%`. -/
def easter_sunday (year : Nat) : Date :=
  let yr : Int := year
  let a := yr.emod 19
  let b := yr.fdiv 100
  let c := yr.emod 100
  let d := b.fdiv 4
  let e := b.emod 4
  let f := (b + 8).fdiv 25
  let g := (b - f + 1).fdiv 3
  let h := (19 * a + b - d - g + 15).emod 30
  let i := c.fdiv 4
  let k := c.emod 4
  let l := (32 + 2 * e + 2 * i - h - k).emod 7
  let m := (a + 11 * h + 22 * l).fdiv 451
  let month := (h + l - 7 * m + 114).fdiv 31
  let day := (h + l - 7 * m + 114).emod 31 + 1
  ⟨year, month.toNat, day.toNat⟩

/-- `calendar_pl.polish_holidays`: nine fixed dates plus the four
Easter-derived dates of the given year. -/
def polish_holidays (year : Nat) : List Date :=
  let easter := easter_sunday year
  [⟨year, 1, 1⟩, ⟨year, 1, 6⟩, ⟨year, 5, 1⟩, ⟨year, 5, 3⟩,
   ⟨year, 8, 15⟩, ⟨year, 11, 1⟩, ⟨year, 11, 11⟩, ⟨year, 12, 25⟩,
   ⟨year, 12, 26⟩,
   easter, addDays easter 1, addDays easter 49, addDays easter 60]

/-- `calendar_pl.is_holiday`. -/
def is_holiday (d : Date) : Bool :=
  (polish_holidays d.y).contains d

/-- `calendar_pl.month_days`: every date of the month, in order. -/
def month_days (y m : Nat) : List Date :=
  (List.range (daysInMonth y m)).map (fun i => ⟨y, m, i + 1⟩)

/-- `domain.Group`: the two staff groups. The specification calls
`ELEKTRORADIOLOG` "RADIOGRAPHER" and `PIELEGNIARKA` "NURSE". -/
inductive Group where
  | ELEKTRORADIOLOG
  | PIELEGNIARKA
deriving DecidableEq, Repr

/-- Case folding restricted to ASCII letters and the Polish letters that
occur in the accepted group labels; agrees with Python's `str.casefold`
on every label the loader compares. -/
def caseFoldChar (c : Char) : Char :=
  if 'A' ≤ c && c ≤ 'Z' then Char.ofNat (c.toNat + 32)
  else if c = 'Ą' then 'ą' else if c = 'Ć' then 'ć' else if c = 'Ę' then 'ę'
  else if c = 'Ł' then 'ł' else if c = 'Ń' then 'ń' else if c = 'Ó' then 'ó'
  else if c = 'Ś' then 'ś' else if c = 'Ź' then 'ź' else if c = 'Ż' then 'ż'
  else c

/-- `str.strip()`: drop leading and trailing whitespace. -/
def trimChars (l : List Char) : List Char :=
  ((l.dropWhile Char.isWhitespace).reverse.dropWhile Char.isWhitespace).reverse

/-- `str.strip().casefold()` as applied by `normalize_group`. -/
def caseFold (s : String) : String :=
  String.mk ((trimChars s.data).map caseFoldChar)

/-- `domain.normalize_group`: the explicit synonym table
(`elektroradiolog`, `er`, `pielęgniarka`, `pielęgniarki`, `piel`) followed
by the fallback comparison against the case-folded enum values
(`elektroradiolog`, `pielegniarka`). Unrecognized labels raise, modelled
as `none`. -/
def normalize_group (value : String) : Option Group :=
  let text := caseFold value
  if text = "elektroradiolog" then some .ELEKTRORADIOLOG
  else if text = "er" then some .ELEKTRORADIOLOG
  else if text = "pielęgniarka" then some .PIELEGNIARKA
  else if text = "pielęgniarki" then some .PIELEGNIARKA
  else if text = "piel" then some .PIELEGNIARKA
  else if text = "pielegniarka" then some .PIELEGNIARKA
  else none

/-- `domain.ContractType = Literal["UOP", "B2B", "ZLECENIE"]`. The
specification calls these EMPLOYMENT, B2B and MANDATE. -/
inductive ContractType where
  | UOP
  | B2B
  | ZLECENIE
deriving DecidableEq, Repr

/-- Validation of the `typ_umowy` field: pydantic accepts a string for a
`Literal` field only when it equals one of the listed values exactly;
there is no normalization step for contract labels anywhere in the code. -/
def validate_contract_label (s : String) : Option ContractType :=
  if s = "UOP" then some .UOP
  else if s = "B2B" then some .B2B
  else if s = "ZLECENIE" then some .ZLECENIE
  else none

/-- `domain.Employee` (clock-hour quantities as rationals). -/
structure Employee where
  id : String
  name : String
  stanowisko : String
  grupa : Group
  typ_umowy : ContractType
  etat : Option ℚ
  moze_24h : Bool
  pn_pt : Bool
  skills : List String
  max_godz_tydz : Option ℚ
  cel_godz_miesiac : Option ℚ
  auto_target : Bool
  min_godz_miesiac : Option ℚ
  max_godz_miesiac : Option ℚ
  okres_rozliczeniowy_mies : Nat
deriving DecidableEq, Repr

/-- `domain.ShiftType`; `start_time` and `end_time` are minutes after
midnight (the loader parses `HH:MM`), `duration_h` is the `czas_h` column. -/
structure ShiftType where
  code : String
  grupa : Group
  modalnosc : String
  start_time : Nat
  end_time : Nat
  duration_h : ℚ
  is_24h : Bool
deriving DecidableEq, Repr

/-- `domain.Demand`. -/
structure Demand where
  date : Date
  shift_code : String
  min_staff : Nat
  target_staff : Nat
  required_modalnosc : String
  grupa : Group
deriving DecidableEq, Repr

/-- `constraints_hard.eligible_for_shift`. -/
def eligible_for_shift (e : Employee) (s : ShiftType) : Bool :=
  if e.grupa ≠ s.grupa then false
  else if s.is_24h && !e.moze_24h then false
  else if s.modalnosc = "MR" && !(e.skills.contains "MR") then false
  else if s.modalnosc = "TK" && !(e.skills.contains "TK") then false
  else if s.modalnosc = "ZDO" && !(e.skills.contains "ZDO") then false
  else if s.modalnosc = "ALL" && e.grupa ≠ .ELEKTRORADIOLOG then false
  else true

/-- One step of Python's stable `sorted(..., key=start_time)`: insert an
element after every element whose key is less than or equal to its own. -/
def insertShift (x : ShiftType) : List ShiftType → List ShiftType
  | [] => [x]
  | y :: ys => if y.start_time ≤ x.start_time then y :: insertShift x ys
               else x :: y :: ys

/-- Stable sort by `start_time`, as `sorted(result, key=start_time)`. -/
def sortByStart (l : List ShiftType) : List ShiftType :=
  l.foldl (fun acc x => insertShift x acc) []

/-- `demand._find_shifts`: filter by group, optional modality, optional
`is_24h` flag, then stable-sort the matches by start time. -/
def find_shifts (shifts : List ShiftType) (grupa : Group)
    (modalnosc : Option String) (is24h : Option Bool) : List ShiftType :=
  sortByStart (shifts.filter (fun s =>
    s.grupa = grupa
    && (match modalnosc with | none => true | some m => s.modalnosc = m)
    && (match is24h with | none => true | some b => s.is_24h = b)))

/-- Placeholder shift used for the (guarded) `xs[0]` / `xs[-1]` accesses. -/
def dummyShift : ShiftType :=
  ⟨"", .ELEKTRORADIOLOG, "", 0, 0, 0, false⟩

/-- A demand line as `demand.build_demands` constructs it from a shift. -/
def mkDemand (day : Date) (s : ShiftType) (minStaff targetStaff : Nat) : Demand :=
  ⟨day, s.code, minStaff, targetStaff, s.modalnosc, s.grupa⟩

/-- The demand lines `build_demands` emits for one day, given the four
selected shift families. -/
def dayDemandLines (day : Date) (er24 erMr erTk nurse : List ShiftType) :
    List Demand :=
  (if is_weekend day || is_holiday day then
     [mkDemand day (er24.headD dummyShift) 1 1]
   else
     [mkDemand day (erMr.headD dummyShift) 1 2,
      mkDemand day (erTk.headD dummyShift) 1 1,
      mkDemand day (erTk.getLastD dummyShift) 1 1])
  ++ [mkDemand day (nurse.headD dummyShift) 1 1,
      mkDemand day (nurse.getLastD dummyShift) 1 1]

/-- `demand.build_demands`; the month is given as year and month numbers
(the Python version receives them as a `"YYYY-MM"` string), errors are the
`ValueError`s the function raises. -/
def build_demands (y m : Nat) (shifts : List (String × ShiftType)) :
    Except String (List Demand) :=
  let shiftValues := shifts.map (·.2)
  let er24 := find_shifts shiftValues .ELEKTRORADIOLOG none (some true)
  let erMr := find_shifts shiftValues .ELEKTRORADIOLOG (some "MR") (some false)
  let erTk := find_shifts shiftValues .ELEKTRORADIOLOG (some "TK") (some false)
  let nurse := find_shifts shiftValues .PIELEGNIARKA (some "ZDO") (some false)
  if er24.isEmpty then .error "Brak zmiany 24h dla ELEKTRORADIOLOG"
  else if erMr.isEmpty then .error "Brak zmiany dziennej MR dla ELEKTRORADIOLOG"
  else if erTk.length < 2 then .error "Brak zmian dziennych/nocnych TK dla ELEKTRORADIOLOG"
  else if nurse.length < 2 then .error "Brak zmian dziennych/nocnych ZDO dla PIELEGNIARKA"
  else .ok ((month_days y m).flatMap (fun day => dayDemandLines day er24 erMr erTk nurse))

/-- Lookup in the shift catalog, which Python keeps as a dict keyed by the
(unique) shift code. -/
def lookupShift (shifts : List (String × ShiftType)) (code : String) :
    Option ShiftType :=
  (shifts.find? (fun p => p.1 = code)).map (·.2)

/-- `constraints_hard.build_decision_vars` creates the 0/1 variable
`x[e,d,s]` exactly for the in-range triples whose employee is eligible for
the shift; `hasVar` decides whether the key is present in the variable map. -/
def hasVar (employees : List Employee) (days : List Date)
    (shifts : List (String × ShiftType)) (e d : Nat) (code : String) : Bool :=
  match employees[e]?, lookupShift shifts code with
  | some emp, some s => decide (d < days.length) && eligible_for_shift emp s
  | _, _ => false

/-- Placeholder date for the (in-range) positional accesses on day lists. -/
def dummyDate : Date := ⟨0, 0, 0⟩

/-- `constraints_hard._shift_end_datetime`, in minutes since the date
ordinal origin. Note the second branch: for a 24-h shift with equal start
and end times the code sets `end_dt = start_dt + timedelta(days=24)`,
i.e. twenty-four DAYS (34560 minutes), overwriting the one-day advance
computed just above. -/
def shift_end_min (day : Date) (s : ShiftType) : Int :=
  let startDt : Int := (toOrdinal day : Int) * 1440 + s.start_time
  let endDt0 : Int := (toOrdinal day : Int) * 1440 + s.end_time
  let endDt1 : Int := if s.end_time ≤ s.start_time then endDt0 + 1440 else endDt0
  if s.is_24h && s.end_time == s.start_time then startDt + 24 * 1440 else endDt1

/-- End-of-shift as the specification describes it: a 24-h shift with
equal start and end times spans twenty-four hours; otherwise a shift whose
end time is not after its start time ends on the next calendar day. Stated
only to compare the specified rest rule with the implemented one. -/
def claimed_shift_end_min (day : Date) (s : ShiftType) : Int :=
  let startDt : Int := (toOrdinal day : Int) * 1440 + s.start_time
  let endDt0 : Int := (toOrdinal day : Int) * 1440 + s.end_time
  if s.is_24h && s.end_time == s.start_time then startDt + 24 * 60
  else if s.end_time ≤ s.start_time then endDt0 + 1440 else endDt0

/-- `constraints_hard.add_rest_constraints` with the default
`min_rest_hours = 11`: the list of tuples `(e, d, code_a, code_b)` for
which the constraint `x[e,d,code_a] + x[e,d+1,code_b] ≤ 1` is added. The
Python comparison `rest_hours < 11` on `rest_minutes / 60` is equivalent
to `rest_minutes < 660` because the rest is a whole number of minutes. -/
def add_rest_constraints (employees : List Employee) (days : List Date)
    (shifts : List (String × ShiftType)) : List (Nat × Nat × String × String) :=
  (List.range employees.length).flatMap (fun e =>
    (List.range (days.length - 1)).flatMap (fun d =>
      shifts.flatMap (fun pa =>
        if hasVar employees days shifts e d pa.1 then
          shifts.filterMap (fun pb =>
            if hasVar employees days shifts e (d + 1) pb.1 then
              let endA := shift_end_min (days.getD d dummyDate) pa.2
              let startB : Int :=
                (toOrdinal (days.getD (d + 1) dummyDate) : Int) * 1440 + pb.2.start_time
              if startB - endA < 660 then some (e, d, pa.1, pb.1) else none
            else none)
        else [])))

/-- Does any decision variable fall inside the 7-entry window starting at
position `start` for employee `e`? (`add_max_consecutive_days` skips a
window whose `work_vars` list is empty.) -/
def windowHasVars (employees : List Employee) (days : List Date)
    (shifts : List (String × ShiftType)) (e start : Nat) : Bool :=
  (List.range 7).any (fun i =>
    shifts.any (fun p => hasVar employees days shifts e (start + i) p.1))

/-- `constraints_hard.add_max_consecutive_days` with the default
`max_days = 6`: the list of pairs `(e, start)` such that the constraint
"at most 6 of the decision variables of employee `e` over the 7 day-list
entries at positions `start .. start+6` may be 1" is added. Windows are
taken over consecutive positions of the day list, not consecutive
calendar dates. -/
def max_consec_windows (employees : List Employee) (days : List Date)
    (shifts : List (String × ShiftType)) : List (Nat × Nat) :=
  if days.length < 7 then []
  else
    (List.range employees.length).flatMap (fun e =>
      (List.range (days.length - 7 + 1)).filterMap (fun start =>
        if windowHasVars employees days shifts e start then some (e, start)
        else none))

/-- Chronological comparison of dates (Python's `date < date`), as
lexicographic order on the year/month/day triple. -/
def dateLtB (a b : Date) : Bool :=
  a.y < b.y || (a.y == b.y && (a.m < b.m || (a.m == b.m && a.d < b.d)))

/-- Insert a date into a strictly sorted list, skipping duplicates; the
building block of `sorted(set(...))`. -/
def insertDate (x : Date) : List Date → List Date
  | [] => [x]
  | y :: ys =>
      if dateLtB x y then x :: y :: ys
      else if x = y then y :: ys
      else y :: insertDate x ys

/-- `sorted(set(l))` for dates: strictly increasing, duplicate-free. -/
def sortedDedup (l : List Date) : List Date :=
  l.foldr insertDate []

/-- `solver._collect_days`: the sorted set of distinct demand dates. -/
def collect_days (demands : List Demand) : List Date :=
  sortedDedup (demands.map (·.date))

/-- Zero-padded two-digit rendering. -/
def pad2 (n : Nat) : String :=
  if n < 10 then "0" ++ toString n else toString n

/-- Zero-padded four-digit rendering. -/
def pad4 (n : Nat) : String :=
  if n < 10 then "000" ++ toString n
  else if n < 100 then "00" ++ toString n
  else if n < 1000 then "0" ++ toString n
  else toString n

/-- Python's `str(date)`: ISO `YYYY-MM-DD`. -/
def dateStr (d : Date) : String :=
  pad4 d.y ++ "-" ++ pad2 d.m ++ "-" ++ pad2 d.d

/-- The CP-SAT statuses `solve_schedule` distinguishes. -/
inductive CpStatus where
  | optimal
  | feasible
  | infeasible
  | model_invalid
  | unknown
deriving DecidableEq, Repr

/-- `status in (cp_model.OPTIMAL, cp_model.FEASIBLE)`. -/
def statusOk : CpStatus → Bool
  | .optimal => true
  | .feasible => true
  | _ => false

/-- `solver.Assignment`. -/
structure Assignment where
  date : Date
  shift_code : String
  employee_id : String
  name : String
deriving DecidableEq, Repr

/-- `solver.SolveResult`. -/
structure SolveResult where
  feasible : Bool
  assignments : List Assignment
  report : Option String
deriving DecidableEq, Repr

/-- `solver._candidate_counts` for one demand line: how many employees are
eligible for its shift. -/
def candidateCount (employees : List Employee)
    (shifts : List (String × ShiftType)) (code : String) : Nat :=
  match lookupShift shifts code with
  | some s => (employees.filter (fun e => eligible_for_shift e s)).length
  | none => 0

/-- A demand line with fewer eligible employees than `min_staff`. -/
def shortfallDemand (employees : List Employee)
    (shifts : List (String × ShiftType)) (dm : Demand) : Bool :=
  candidateCount employees shifts dm.shift_code < dm.min_staff

/-- The `"shift_code: available/required"` entry of the infeasibility
report. -/
def shortEntry (employees : List Employee)
    (shifts : List (String × ShiftType)) (dm : Demand) : String :=
  dm.shift_code ++ ": " ++ toString (candidateCount employees shifts dm.shift_code)
    ++ "/" ++ toString dm.min_staff

/-- The diagnostic text `solve_schedule` returns when the solver finds no
solution: per shortfall date, in chronological order, the entries of that
date's shortfall demand lines in demand-list order; or the fixed fallback
message when no demand line is short of candidates. -/
def infeasReport (employees : List Employee) (demands : List Demand)
    (shifts : List (String × ShiftType)) : String :=
  let shorts := demands.filter (shortfallDemand employees shifts)
  if shorts.isEmpty then "Model infeasible: brak szczegolowych wskazowek."
  else
    String.intercalate "\n"
      ("Brak kandydatow dla demandow:" ::
        (sortedDedup (shorts.map (·.date))).map (fun day =>
          "- " ++ dateStr day ++ ": " ++
            String.intercalate ", "
              ((shorts.filter (fun dm => dm.date = day)).map
                (shortEntry employees shifts))))

/-- Index of a date in the solver's day list (`day_index[demand.date]`). -/
def idxOfDate (days : List Date) (d : Date) : Nat :=
  days.findIdx (fun x => x = d)

/-- Assignment extraction of `solve_schedule`: iterate the demand list in
its given order and, per demand, the employees in input order; emit an
`Assignment` for every existing decision variable the solver set to 1.
The solver's valuation is the oracle `sol`. -/
def extractAssignments (employees : List Employee) (demands : List Demand)
    (days : List Date) (shifts : List (String × ShiftType))
    (sol : Nat → Nat → String → Bool) : List Assignment :=
  demands.flatMap (fun dm =>
    let dIdx := idxOfDate days dm.date
    (List.range employees.length).filterMap (fun eIdx =>
      (employees[eIdx]?).bind (fun emp =>
        if hasVar employees days shifts eIdx dIdx dm.shift_code
            && sol eIdx dIdx dm.shift_code then
          some ⟨dm.date, dm.shift_code, emp.id, emp.name⟩
        else none)))

/-- `solver.solve_schedule`, with the CP solver abstracted into its
returned `status` and the valuation `sol` of the decision variables. -/
def solve_schedule (employees : List Employee) (demands : List Demand)
    (shifts : List (String × ShiftType)) (status : CpStatus)
    (sol : Nat → Nat → String → Bool) : SolveResult :=
  if demands.isEmpty then ⟨true, [], none⟩
  else
    let days := collect_days demands
    if statusOk status then
      ⟨true, extractAssignments employees demands days shifts sol, none⟩
    else
      ⟨false, [], some (infeasReport employees demands shifts)⟩

/-- Python's `round` on a rational: nearest integer, ties to even. -/
def pyRound (q : ℚ) : Int :=
  let f := ⌊q⌋
  let r := q - f
  if r < 1 / 2 then f
  else if 1 / 2 < r then f + 1
  else if 2 ∣ f then f else f + 1

/-- `constraints_soft._minutes_from_hours`: `int(round(hours * 60))`. -/
def minutes_from_hours : Option ℚ → Option Int
  | none => none
  | some h => some (pyRound (h * 60))

/-- `constraints_soft._count_workdays`: days that are neither weekend nor
holiday. -/
def count_workdays (days : List Date) : Nat :=
  (days.filter (fun d => !is_weekend d && !is_holiday d)).length

/-- `constraints_soft._employee_target_minutes`. For an employment (UOP)
contract with the AUTO sentinel the target is
`round(etat * workdays * 7.5833 * 60)` minutes; otherwise the explicit
monthly target converted to minutes. -/
def employee_target_minutes (e : Employee) (workdays : Nat) : Option Int :=
  if e.typ_umowy = .UOP && e.auto_target then
    match e.etat with
    | none => none
    | some f => minutes_from_hours (some (f * (workdays : ℚ) * (75833 / 10000 : ℚ)))
  else minutes_from_hours e.cel_godz_miesiac

/-- The target-hours contribution of one employee to the soft objective of
`constraints_soft.add_soft_constraints`, as a function of the weight
`w_target_hours` and the employee's total assigned minutes: the model sets
`deviation = |total_minutes − target_minutes|` and adds
`weight · deviation`; no term is added when no target exists. -/
def targetPenaltyTerm (w : Int) (e : Employee) (workdays : Nat)
    (totalMinutes : Int) : Int :=
  match employee_target_minutes e workdays with
  | none => 0
  | some t => w * |totalMinutes - t|

/-- Lexicographic comparison of character lists by code point. -/
def charListLt : List Char → List Char → Bool
  | [], [] => false
  | [], _ :: _ => true
  | _ :: _, [] => false
  | a :: as, b :: bs =>
      if a < b then true else if b < a then false else charListLt as bs

/-- String comparison (lexicographic on characters), as Python compares
shift codes and employee ids. -/
def strLtB (a b : String) : Bool :=
  charListLt a.data b.data

/-- Non-strict string comparison. -/
def strLeB (a b : String) : Bool :=
  !(strLtB b a)

/-- Lexicographic order on `(date, shift_code, employee_id)`; the order in
which the specification says assignments are emitted. -/
def assignLeB (a b : Assignment) : Bool :=
  dateLtB a.date b.date
  || (a.date == b.date
      && (strLtB a.shift_code b.shift_code
          || (a.shift_code == b.shift_code
              && strLeB a.employee_id b.employee_id)))

/-- Strict lexicographic order on a demand's `(date, shift_code)` key. -/
def demandKeyLtB (a b : Demand) : Bool :=
  dateLtB a.date b.date
  || (a.date == b.date && strLtB a.shift_code b.shift_code)

/-! Concrete test data used by the closed instances below. -/

/-- A radiographer qualified for MR, TK and 24-h work. -/
def empER : Employee :=
  { id := "R1", name := "Rad One", stanowisko := "elektroradiolog",
    grupa := .ELEKTRORADIOLOG, typ_umowy := .UOP, etat := some 1,
    moze_24h := true, pn_pt := false, skills := ["MR", "TK", "ALL"],
    max_godz_tydz := none, cel_godz_miesiac := none, auto_target := true,
    min_godz_miesiac := none, max_godz_miesiac := none,
    okres_rozliczeniowy_mies := 1 }

/-- A nurse with id `E1`. -/
def empN1 : Employee :=
  { id := "E1", name := "Nurse One", stanowisko := "pielegniarka",
    grupa := .PIELEGNIARKA, typ_umowy := .ZLECENIE, etat := none,
    moze_24h := false, pn_pt := false, skills := ["ZDO"],
    max_godz_tydz := none, cel_godz_miesiac := none, auto_target := false,
    min_godz_miesiac := none, max_godz_miesiac := none,
    okres_rozliczeniowy_mies := 1 }

/-- A nurse with id `E2`. -/
def empN2 : Employee :=
  { empN1 with id := "E2", name := "Nurse Two" }

/-- An employment-contract nurse with the AUTO target and half-time
fraction. -/
def empAuto : Employee :=
  { empN1 with
    id := "A1"
    name := "Auto Nurse"
    typ_umowy := .UOP
    etat := some (1 / 2)
    auto_target := true }

/-- A 24-h radiographer shift starting and ending at 08:00. -/
def shiftD24 : ShiftType :=
  ⟨"D24", .ELEKTRORADIOLOG, "ALL", 480, 480, 24, true⟩

/-- A TK shift running 20:00–22:00. -/
def shiftTKD : ShiftType :=
  ⟨"TKD", .ELEKTRORADIOLOG, "TK", 1200, 1320, 2, false⟩

/-- A nurse day shift running 07:00–19:00. -/
def shiftZDD : ShiftType :=
  ⟨"ZDD", .PIELEGNIARKA, "ZDO", 420, 1140, 12, false⟩

/-- A nurse night shift running 19:00–07:00. -/
def shiftZDN : ShiftType :=
  ⟨"ZDN", .PIELEGNIARKA, "ZDO", 1140, 420, 12, false⟩

/-- An MR day shift running 07:00–15:00. -/
def shiftMRD : ShiftType :=
  ⟨"MRD", .ELEKTRORADIOLOG, "MR", 420, 900, 8, false⟩

/-- A TK day shift running 07:00–15:00. -/
def shiftTK1 : ShiftType :=
  ⟨"TK1", .ELEKTRORADIOLOG, "TK", 420, 900, 8, false⟩

/-- A TK night shift running 19:00–07:00. -/
def shiftTK2 : ShiftType :=
  ⟨"TK2", .ELEKTRORADIOLOG, "TK", 1140, 420, 12, false⟩

/-- A full catalog passing every `build_demands` check. -/
def catalogFull : List (String × ShiftType) :=
  [("MRD", shiftMRD), ("TK1", shiftTK1), ("TK2", shiftTK2),
   ("D24", shiftD24), ("ZDD", shiftZDD), ("ZDN", shiftZDN)]

/-- The two consecutive days of the rest-rule instance. -/
def restDays : List Date :=
  [⟨2026, 2, 7⟩, ⟨2026, 2, 8⟩]

/-- The catalog of the rest-rule instance. -/
def restShifts : List (String × ShiftType) :=
  [("D24", shiftD24), ("TKD", shiftTKD)]

/-- One nurse demand line on 2026-02-02. -/
def demandZDD1 : Demand :=
  ⟨⟨2026, 2, 2⟩, "ZDD", 1, 1, "ZDO", .PIELEGNIARKA⟩

/-- One nurse demand line on 2026-02-03. -/
def demandZDD2 : Demand :=
  ⟨⟨2026, 2, 3⟩, "ZDD", 1, 1, "ZDO", .PIELEGNIARKA⟩

/-- A solver valuation that sets every decision variable to 1. -/
def solAll : Nat → Nat → String → Bool :=
  fun _ _ _ => true

/-- Sparse demand list: nurse cover on 2026-02-01 … 2026-02-06 and on
2026-02-20. -/
def sparseDemands : List Demand :=
  [⟨⟨2026, 2, 1⟩, "ZDD", 1, 1, "ZDO", .PIELEGNIARKA⟩,
   ⟨⟨2026, 2, 2⟩, "ZDD", 1, 1, "ZDO", .PIELEGNIARKA⟩,
   ⟨⟨2026, 2, 3⟩, "ZDD", 1, 1, "ZDO", .PIELEGNIARKA⟩,
   ⟨⟨2026, 2, 4⟩, "ZDD", 1, 1, "ZDO", .PIELEGNIARKA⟩,
   ⟨⟨2026, 2, 5⟩, "ZDD", 1, 1, "ZDO", .PIELEGNIARKA⟩,
   ⟨⟨2026, 2, 6⟩, "ZDD", 1, 1, "ZDO", .PIELEGNIARKA⟩,
   ⟨⟨2026, 2, 20⟩, "ZDD", 1, 1, "ZDO", .PIELEGNIARKA⟩]

/-- The demand list `build_demands` produces for February 2026 over the
full catalog. -/
def demandsFeb : List Demand :=
  (build_demands 2026 2 catalogFull).toOption.getD []

/-! Helper lemmas shared by the claim theorems. -/

/-- `insertDate` inserts the new date and keeps the rest. -/
theorem mem_insertDate {a x : Date} {l : List Date} :
    a ∈ insertDate x l ↔ a = x ∨ a ∈ l := by
  induction l with
  | nil => simp [insertDate]
  | cons y ys ih =>
      simp only [insertDate]
      split
      · simp [List.mem_cons]
      · split
        · next h2 =>
            subst h2
            simp only [List.mem_cons]
            tauto
        · simp only [List.mem_cons, ih]
          tauto

/-- Comparison of dates is total: two distinct dates are comparable. -/
theorem dateLtB_total {x y : Date} (h1 : dateLtB x y = false) (h2 : x ≠ y) :
    dateLtB y x = true := by
  cases x with
  | mk xy xm xd =>
      cases y with
      | mk yy ym yd =>
          have h1' : ¬ (dateLtB ⟨xy, xm, xd⟩ ⟨yy, ym, yd⟩ = true) := by
            simp [h1]
          have h2' : ¬ (xy = yy ∧ xm = ym ∧ xd = yd) := by
            simpa [Date.mk.injEq] using h2
          simp only [dateLtB, Bool.or_eq_true, Bool.and_eq_true, beq_iff_eq,
            decide_eq_true_eq] at h1' ⊢
          omega

/-- The head of `insertDate x l` is `x` or the head of `l`. -/
theorem head?_insertDate (x : Date) (l : List Date) :
    (insertDate x l).head? = some x ∨ (insertDate x l).head? = l.head? := by
  cases l with
  | nil => left; rfl
  | cons y ys =>
      simp only [insertDate]
      split
      · left; rfl
      · split
        · right; rfl
        · right; rfl

/-- Inserting into a strictly increasing date list keeps it strictly
increasing. -/
theorem chain'_insertDate (x : Date) (l : List Date)
    (h : List.Chain' (fun a b => dateLtB a b = true) l) :
    List.Chain' (fun a b => dateLtB a b = true) (insertDate x l) := by
  induction l with
  | nil => simp [insertDate]
  | cons y ys ih =>
      rcases List.chain'_cons'.mp h with ⟨hhead, htail⟩
      simp only [insertDate]
      split
      · next h1 => exact List.chain'_cons'.mpr ⟨by simp [h1], h⟩
      · split
        · exact h
        · next h1 h2 =>
            refine List.chain'_cons'.mpr ⟨?_, ih htail⟩
            intro b hb
            rcases head?_insertDate x ys with hh | hh
            · rw [hh] at hb
              cases hb
              exact dateLtB_total (by simpa using h1) h2
            · rw [hh] at hb
              exact hhead b hb

/-- `sorted(set(...))` contains exactly the input dates. -/
theorem mem_sortedDedup {a : Date} {l : List Date} :
    a ∈ sortedDedup l ↔ a ∈ l := by
  induction l with
  | nil => simp [sortedDedup]
  | cons x xs ih =>
      have : sortedDedup (x :: xs) = insertDate x (sortedDedup xs) := rfl
      rw [this, mem_insertDate, ih]
      simp

/-- `sorted(set(...))` is strictly increasing (hence duplicate-free). -/
theorem chain'_sortedDedup (l : List Date) :
    List.Chain' (fun a b => dateLtB a b = true) (sortedDedup l) := by
  induction l with
  | nil => simp [sortedDedup]
  | cons x xs ih => exact chain'_insertDate x _ ih

/-- `insertShift` grows the list by one element. -/
theorem length_insertShift (x : ShiftType) (l : List ShiftType) :
    (insertShift x l).length = l.length + 1 := by
  induction l with
  | nil => rfl
  | cons y ys ih =>
      simp only [insertShift]
      split
      · simp [ih]
      · simp

/-- Sorting by start time preserves length. -/
theorem length_sortByStart (l : List ShiftType) :
    (sortByStart l).length = l.length := by
  have key : ∀ (l acc : List ShiftType),
      (List.foldl (fun acc x => insertShift x acc) acc l).length =
        acc.length + l.length := by
    intro l
    induction l with
    | nil => intro acc; simp
    | cons x xs ih =>
        intro acc
        simp only [List.foldl_cons, ih, length_insertShift, List.length_cons]
        omega
  simpa using key l []

/-! Claim theorems. -/

/-- C9: `is_holiday d` is true exactly when `d` is one of the nine fixed
Polish holidays of its year (Jan 1, Jan 6, May 1, May 3, Aug 15, Nov 1,
Nov 11, Dec 25, Dec 26) or one of the four Easter-derived dates (Easter
Sunday per the Anonymous Gregorian algorithm, Easter Monday at +1 day,
Pentecost at +49 days, Corpus Christi at +60 days); Easter Sunday 2026 is
April 5, so 2026-04-05, 2026-04-06, 2026-05-24 and 2026-06-04 are
holidays. -/
theorem c9_polish_holidays :
    (∀ d : Date,
      is_holiday d = true ↔
        (d = ⟨d.y, 1, 1⟩ ∨ d = ⟨d.y, 1, 6⟩ ∨ d = ⟨d.y, 5, 1⟩ ∨ d = ⟨d.y, 5, 3⟩ ∨
         d = ⟨d.y, 8, 15⟩ ∨ d = ⟨d.y, 11, 1⟩ ∨ d = ⟨d.y, 11, 11⟩ ∨
         d = ⟨d.y, 12, 25⟩ ∨ d = ⟨d.y, 12, 26⟩ ∨
         d = easter_sunday d.y ∨ d = addDays (easter_sunday d.y) 1 ∨
         d = addDays (easter_sunday d.y) 49 ∨ d = addDays (easter_sunday d.y) 60)) ∧
    easter_sunday 2026 = ⟨2026, 4, 5⟩ ∧
    is_holiday ⟨2026, 4, 5⟩ = true ∧ is_holiday ⟨2026, 4, 6⟩ = true ∧
    is_holiday ⟨2026, 5, 24⟩ = true ∧ is_holiday ⟨2026, 6, 4⟩ = true := by
  refine ⟨?_, by decide, by decide, by decide, by decide, by decide⟩
  intro d
  simp [is_holiday, polish_holidays, List.elem_iff, List.mem_cons]

/-- C4 counterexample: the claim is false on the code. The group label
`zdo` is rejected by `normalize_group` (the claim says it yields NURSE),
and contract-type labels undergo no normalization at all: the synonym
`UMOWA O PRACE` is rejected (the claim says it yields EMPLOYMENT/UOP), as
are `KONTRAKT`, `UZ` and even lowercase spellings of the exact labels. -/
theorem c4_labels_counterexample :
    normalize_group "zdo" = none ∧
    validate_contract_label "UMOWA O PRACE" = none ∧
    validate_contract_label "KONTRAKT" = none ∧
    validate_contract_label "UZ" = none ∧
    validate_contract_label "uop" = none := by
  decide

/-- C4 (amended): group labels are normalized case-insensitively (with the
accented spellings listed explicitly): `elektroradiolog` and `er` yield
ELEKTRORADIOLOG (RADIOGRAPHER); `pielęgniarka`, `pielęgniarki`, `piel` and
the accent-free `pielegniarka` yield PIELEGNIARKA (NURSE); every other
label — `zdo` included — is rejected. Contract-type labels are not
normalized: exactly the strings `UOP`, `B2B` and `ZLECENIE` are accepted,
with no synonyms and no case folding. -/
theorem c4_label_normalization :
    (∀ (s : String) (g : Group),
      normalize_group s = some g ↔
        (g = .ELEKTRORADIOLOG ∧
          (caseFold s = "elektroradiolog" ∨ caseFold s = "er")) ∨
        (g = .PIELEGNIARKA ∧
          (caseFold s = "pielęgniarka" ∨ caseFold s = "pielęgniarki" ∨
           caseFold s = "piel" ∨ caseFold s = "pielegniarka"))) ∧
    (∀ (s : String) (c : ContractType),
      validate_contract_label s = some c ↔
        ((s = "UOP" ∧ c = .UOP) ∨ (s = "B2B" ∧ c = .B2B) ∨
         (s = "ZLECENIE" ∧ c = .ZLECENIE))) := by
  constructor
  · intro s g
    simp only [normalize_group]
    split_ifs with h1 h2 h3 h4 h5 h6 <;> cases g <;> simp_all
  · intro s c
    simp only [validate_contract_label]
    split_ifs with h1 h2 h3 <;> cases c <;> simp_all

/-- The length of a `find_shifts` selection equals the length of the
plain filter it sorts. -/
theorem length_find_shifts (l : List ShiftType) (g : Group)
    (mo : Option String) (i24 : Option Bool) :
    (find_shifts l g mo i24).length =
      (l.filter (fun s =>
        s.grupa = g
        && (match mo with | none => true | some m => s.modalnosc = m)
        && (match i24 with | none => true | some b => s.is_24h = b))).length := by
  rw [find_shifts, length_sortByStart]

/-- C6: `build_demands` fails (returns an error, producing no demand list)
if and only if the shift catalog lacks a required category: no 24-h
radiographer shift, or no non-24-h MR radiographer shift, or fewer than
two non-24-h TK radiographer shifts, or fewer than two non-24-h nurse ZDO
shifts. -/
theorem c6_build_demands_error_iff (y m : Nat)
    (shifts : List (String × ShiftType)) :
    (∃ msg, build_demands y m shifts = .error msg) ↔
      ((shifts.map (·.2)).filter (fun s =>
          s.grupa = .ELEKTRORADIOLOG && s.is_24h)).length = 0 ∨
      ((shifts.map (·.2)).filter (fun s =>
          s.grupa = .ELEKTRORADIOLOG && s.modalnosc = "MR" && !s.is_24h)).length = 0 ∨
      ((shifts.map (·.2)).filter (fun s =>
          s.grupa = .ELEKTRORADIOLOG && s.modalnosc = "TK" && !s.is_24h)).length < 2 ∨
      ((shifts.map (·.2)).filter (fun s =>
          s.grupa = .PIELEGNIARKA && s.modalnosc = "ZDO" && !s.is_24h)).length < 2 := by
  have f24 : (find_shifts (shifts.map (·.2)) .ELEKTRORADIOLOG none (some true)).length
      = ((shifts.map (·.2)).filter (fun s =>
          s.grupa = .ELEKTRORADIOLOG && s.is_24h)).length := by
    rw [length_find_shifts]
    congr 1
    apply List.filter_congr
    intro s _
    simp
  have fMR : (find_shifts (shifts.map (·.2)) .ELEKTRORADIOLOG (some "MR") (some false)).length
      = ((shifts.map (·.2)).filter (fun s =>
          s.grupa = .ELEKTRORADIOLOG && s.modalnosc = "MR" && !s.is_24h)).length := by
    rw [length_find_shifts]
    congr 1
    apply List.filter_congr
    intro s _
    simp
  have fTK : (find_shifts (shifts.map (·.2)) .ELEKTRORADIOLOG (some "TK") (some false)).length
      = ((shifts.map (·.2)).filter (fun s =>
          s.grupa = .ELEKTRORADIOLOG && s.modalnosc = "TK" && !s.is_24h)).length := by
    rw [length_find_shifts]
    congr 1
    apply List.filter_congr
    intro s _
    simp
  have fZD : (find_shifts (shifts.map (·.2)) .PIELEGNIARKA (some "ZDO") (some false)).length
      = ((shifts.map (·.2)).filter (fun s =>
          s.grupa = .PIELEGNIARKA && s.modalnosc = "ZDO" && !s.is_24h)).length := by
    rw [length_find_shifts]
    congr 1
    apply List.filter_congr
    intro s _
    simp
  simp only [build_demands]
  split_ifs with h1 h2 h3 h4
  · rw [List.isEmpty_iff_length_eq_zero] at h1
    constructor
    · intro _
      left
      rw [← f24]
      exact h1
    · intro _
      exact ⟨_, rfl⟩
  · rw [List.isEmpty_iff_length_eq_zero] at h2
    constructor
    · intro _
      right; left
      rw [← fMR]
      exact h2
    · intro _
      exact ⟨_, rfl⟩
  · constructor
    · intro _
      right; right; left
      rw [← fTK]
      exact h3
    · intro _
      exact ⟨_, rfl⟩
  · constructor
    · intro _
      right; right; right
      rw [← fZD]
      exact h4
    · intro _
      exact ⟨_, rfl⟩
  · rw [List.isEmpty_iff_length_eq_zero] at h1 h2
    constructor
    · rintro ⟨msg, hmsg⟩
      cases hmsg
    · intro hr
      rcases hr with hr | hr | hr | hr
      · rw [← f24] at hr
        exact absurd hr h1
      · rw [← fMR] at hr
        exact absurd hr h2
      · rw [← fTK] at hr
        exact absurd hr h3
      · rw [← fZD] at hr
        exact absurd hr h4

/-- Every demand line built for a day carries that day's date. -/
theorem date_of_dayDemandLines {day : Date} {er24 erMr erTk nurse : List ShiftType}
    {dm : Demand} (h : dm ∈ dayDemandLines day er24 erMr erTk nurse) :
    dm.date = day := by
  rw [dayDemandLines] at h
  rcases List.mem_append.mp h with h' | h'
  · split at h'
    · simp only [List.mem_singleton] at h'
      subst h'
      rfl
    · simp only [List.mem_cons, List.not_mem_nil, or_false] at h'
      rcases h' with rfl | rfl | rfl <;> rfl
  · simp only [List.mem_cons, List.not_mem_nil, or_false] at h'
    rcases h' with rfl | rfl <;> rfl

/-- The dates of a month are pairwise distinct. -/
theorem nodup_month_days (y m : Nat) :
    (month_days y m).Pairwise (· ≠ ·) := by
  unfold month_days
  rw [List.pairwise_map]
  apply List.Pairwise.imp ?_ (List.pairwise_lt_range (daysInMonth y m))
  intro a b hab hcontra
  simp only [Date.mk.injEq] at hcontra
  omega

/-- Filtering a day-indexed `flatMap` by one of the (distinct) days
recovers exactly that day's block. -/
theorem filter_date_flatMap (l : List Date) (f : Date → List Demand)
    (hf : ∀ d, ∀ dm ∈ f d, dm.date = d) (hnd : l.Pairwise (· ≠ ·))
    (day : Date) (hday : day ∈ l) :
    (l.flatMap f).filter (fun dm => dm.date = day) = f day := by
  induction l with
  | nil => cases hday
  | cons a as ih =>
      rw [List.flatMap_cons, List.filter_append]
      rcases List.mem_cons.mp hday with rfl | hmem
      · have h1 : (f day).filter (fun dm => dm.date = day) = f day := by
          apply List.filter_eq_self.mpr
          intro dm hdm
          simp [hf day dm hdm]
        have h2 : (as.flatMap f).filter (fun dm => dm.date = day) = [] := by
          apply List.filter_eq_nil_iff.mpr
          intro dm hdm
          rcases List.mem_flatMap.mp hdm with ⟨d, hd, hdmf⟩
          have hdd : dm.date = d := hf d dm hdmf
          have hne : day ≠ d := (List.pairwise_cons.mp hnd).1 d hd
          simp [hdd]
          intro hh
          exact hne hh.symm
        rw [h1, h2, List.append_nil]
      · have hne : a ≠ day := (List.pairwise_cons.mp hnd).1 day hmem
        have h1 : (f a).filter (fun dm => dm.date = day) = [] := by
          apply List.filter_eq_nil_iff.mpr
          intro dm hdm
          have hdd : dm.date = a := hf a dm hdm
          simp [hdd]
          intro hh
          exact hne hh
        rw [h1, List.nil_append]
        exact ih (List.pairwise_cons.mp hnd).2 hmem

/-- C5: for every month and every catalog passing the catalog checks,
the demand lines `build_demands` emits for a given day are: on a
weekend-or-holiday day one radiographer line for the (first-by-start)
24-h shift with `min_staff = 1`, `target_staff = 1`; on every other day
three radiographer lines — MR daytime (min 1, target 2), TK daytime
(min 1, target 1), TK night (min 1, target 1) — and, on every day, two
nurse lines (day and night, each min 1, target 1); in each family the
non-24-h matches are sorted by start time, the first being the day shift
and the last the night shift. -/
theorem c5_demand_lines_per_day (y m : Nat)
    (shifts : List (String × ShiftType)) (ds : List Demand) (day : Date)
    (hok : build_demands y m shifts = .ok ds) (hday : day ∈ month_days y m) :
    ds.filter (fun dm => dm.date = day) =
      (if is_weekend day || is_holiday day then
        [mkDemand day
          ((find_shifts (shifts.map (·.2)) .ELEKTRORADIOLOG none (some true)).headD
            dummyShift) 1 1]
      else
        [mkDemand day
          ((find_shifts (shifts.map (·.2)) .ELEKTRORADIOLOG (some "MR") (some false)).headD
            dummyShift) 1 2,
         mkDemand day
          ((find_shifts (shifts.map (·.2)) .ELEKTRORADIOLOG (some "TK") (some false)).headD
            dummyShift) 1 1,
         mkDemand day
          ((find_shifts (shifts.map (·.2)) .ELEKTRORADIOLOG (some "TK") (some false)).getLastD
            dummyShift) 1 1])
      ++ [mkDemand day
            ((find_shifts (shifts.map (·.2)) .PIELEGNIARKA (some "ZDO") (some false)).headD
              dummyShift) 1 1,
          mkDemand day
            ((find_shifts (shifts.map (·.2)) .PIELEGNIARKA (some "ZDO") (some false)).getLastD
              dummyShift) 1 1] := by
  simp only [build_demands] at hok
  split_ifs at hok
  cases hok
  rw [filter_date_flatMap (month_days y m) _
    (fun d dm hdm => date_of_dayDemandLines hdm) (nodup_month_days y m) day hday]
  rfl

/-- Witness for C5: February 2026 over the full catalog, on the ordinary
weekday 2026-02-02 (a Monday): three radiographer lines plus the two
nurse lines. -/
theorem c5_demand_lines_per_day_witness :
    build_demands 2026 2 catalogFull = .ok demandsFeb ∧
    (⟨2026, 2, 2⟩ : Date) ∈ month_days 2026 2 ∧
    demandsFeb.filter (fun dm => dm.date = ⟨2026, 2, 2⟩) =
      (if is_weekend (⟨2026, 2, 2⟩ : Date) || is_holiday (⟨2026, 2, 2⟩ : Date) then
        [mkDemand ⟨2026, 2, 2⟩
          ((find_shifts (catalogFull.map (·.2)) .ELEKTRORADIOLOG none (some true)).headD
            dummyShift) 1 1]
      else
        [mkDemand ⟨2026, 2, 2⟩
          ((find_shifts (catalogFull.map (·.2)) .ELEKTRORADIOLOG (some "MR") (some false)).headD
            dummyShift) 1 2,
         mkDemand ⟨2026, 2, 2⟩
          ((find_shifts (catalogFull.map (·.2)) .ELEKTRORADIOLOG (some "TK") (some false)).headD
            dummyShift) 1 1,
         mkDemand ⟨2026, 2, 2⟩
          ((find_shifts (catalogFull.map (·.2)) .ELEKTRORADIOLOG (some "TK") (some false)).getLastD
            dummyShift) 1 1])
      ++ [mkDemand ⟨2026, 2, 2⟩
            ((find_shifts (catalogFull.map (·.2)) .PIELEGNIARKA (some "ZDO") (some false)).headD
              dummyShift) 1 1,
          mkDemand ⟨2026, 2, 2⟩
            ((find_shifts (catalogFull.map (·.2)) .PIELEGNIARKA (some "ZDO") (some false)).getLastD
              dummyShift) 1 1] :=
  ⟨by rfl, by decide,
    c5_demand_lines_per_day 2026 2 catalogFull demandsFeb ⟨2026, 2, 2⟩
      (by rfl) (by decide)⟩

/-- C1: evaluation of the rest-rule slip. For the 24-h shift `D24`
(08:00–08:00, `is_24h`) on 2026-02-07 followed by `TKD` starting 20:00 on
2026-02-08, the specified gap — with the 24-h shift spanning twenty-four
HOURS — is 720 minutes, not less than the 660-minute threshold, so by the
claim no constraint may be added; yet `add_rest_constraints` adds the
constraint, because `_shift_end_datetime` sets the end of such a shift to
`start + timedelta(days=24)`, i.e. twenty-four DAYS (34560 minutes) after
its start. -/
theorem c1_rest_gap_code_bug :
    (0, 0, "D24", "TKD") ∈ add_rest_constraints [empER] restDays restShifts ∧
    ((toOrdinal (⟨2026, 2, 8⟩ : Date) : Int) * 1440 + shiftTKD.start_time)
        - claimed_shift_end_min ⟨2026, 2, 7⟩ shiftD24 = 720 ∧
    ¬ (((toOrdinal (⟨2026, 2, 8⟩ : Date) : Int) * 1440 + shiftTKD.start_time)
        - claimed_shift_end_min ⟨2026, 2, 7⟩ shiftD24 < 660) ∧
    shift_end_min ⟨2026, 2, 7⟩ shiftD24
        - ((toOrdinal (⟨2026, 2, 7⟩ : Date) : Int) * 1440 + shiftD24.start_time)
      = 24 * 1440 := by
  exact ⟨by decide, by decide, by decide, by decide⟩

/-- C7: for an employment (UOP) employee carrying the AUTO sentinel and
fraction `f`, the target minutes used by the soft objective equal
`round(f × workdays × 7.5833 × 60)`, where `workdays` counts the days of
the scheduling horizon that are neither weekend nor Polish holiday, and
the target-hours penalty term is `w_target_hours` times the absolute
deviation of the employee's total assigned minutes from this target. -/
theorem c7_auto_target_minutes (e : Employee) (f : ℚ) (w totalMinutes : Int)
    (days : List Date) (h1 : e.typ_umowy = .UOP) (h2 : e.auto_target = true)
    (h3 : e.etat = some f) :
    employee_target_minutes e (count_workdays days) =
      some (pyRound (f * ((count_workdays days : Nat) : ℚ) * (75833 / 10000) * 60)) ∧
    targetPenaltyTerm w e (count_workdays days) totalMinutes =
      w * |totalMinutes -
            pyRound (f * ((count_workdays days : Nat) : ℚ) * (75833 / 10000) * 60)| ∧
    count_workdays days =
      (days.filter (fun d => !is_weekend d && !is_holiday d)).length := by
  have key : employee_target_minutes e (count_workdays days) =
      some (pyRound (f * ((count_workdays days : Nat) : ℚ) * (75833 / 10000) * 60)) := by
    simp [employee_target_minutes, h1, h2, h3, minutes_from_hours]
  refine ⟨key, ?_, rfl⟩
  rw [targetPenaltyTerm, key]

/-- Witness for C7: the half-time AUTO-target nurse over February 2026,
whose horizon has 20 workdays. -/
theorem c7_auto_target_minutes_witness :
    empAuto.typ_umowy = .UOP ∧ empAuto.auto_target = true ∧
    empAuto.etat = some (1 / 2) ∧
    employee_target_minutes empAuto (count_workdays (month_days 2026 2)) =
      some (pyRound ((1 / 2 : ℚ) *
        ((count_workdays (month_days 2026 2) : Nat) : ℚ) * (75833 / 10000) * 60)) ∧
    count_workdays (month_days 2026 2) = 20 :=
  ⟨rfl, rfl, rfl,
    (c7_auto_target_minutes empAuto (1 / 2) 100 0 (month_days 2026 2)
      rfl rfl rfl).1,
    by decide⟩

/-- C2 counterexample: with one eligible nurse, one satisfiable demand
line and an infeasible solver status, no demand line is short of
candidates, so the code returns its fixed fallback text — which is the
Polish `"Model infeasible: brak szczegolowych wskazowek."`, not the text
`"Model infeasible: no specific hints"` stated by the claim. -/
theorem c2_fallback_text_counterexample :
    (solve_schedule [empN1] [demandZDD1] [("ZDD", shiftZDD)] .infeasible solAll).report
      = some "Model infeasible: brak szczegolowych wskazowek." ∧
    (solve_schedule [empN1] [demandZDD1] [("ZDD", shiftZDD)] .infeasible solAll).report
      ≠ some "Model infeasible: no specific hints" := by
  exact ⟨by decide, by decide⟩

/-- C2 (amended): `solve_schedule` never raises on infeasibility. With an
empty demand list it returns `feasible = true`, no assignments and no
report. When the solver status is neither optimal nor feasible it returns
`feasible = false` with no assignments and a report that lists, sorted by
date, every demand line whose count of eligible employees is less than
`min_staff` as an entry `"shift_code: available/required"`; when no such
demand line exists the report is the fixed fallback text
`"Model infeasible: brak szczegolowych wskazowek."` (rendered in the
specification as "Model infeasible: no specific hints"). -/
theorem c2_infeasibility_handling :
    (∀ (employees : List Employee) (shifts : List (String × ShiftType))
        (status : CpStatus) (sol : Nat → Nat → String → Bool),
      solve_schedule employees [] shifts status sol = ⟨true, [], none⟩) ∧
    (∀ (employees : List Employee) (demands : List Demand)
        (shifts : List (String × ShiftType)) (status : CpStatus)
        (sol : Nat → Nat → String → Bool),
      demands ≠ [] → statusOk status = false →
      solve_schedule employees demands shifts status sol =
        ⟨false, [], some (infeasReport employees demands shifts)⟩) ∧
    (∀ (employees : List Employee) (demands : List Demand)
        (shifts : List (String × ShiftType)),
      (demands.filter (shortfallDemand employees shifts) = [] →
        infeasReport employees demands shifts =
          "Model infeasible: brak szczegolowych wskazowek.") ∧
      (demands.filter (shortfallDemand employees shifts) ≠ [] →
        infeasReport employees demands shifts =
          String.intercalate "\n"
            ("Brak kandydatow dla demandow:" ::
              (sortedDedup ((demands.filter (shortfallDemand employees shifts)).map
                  (·.date))).map
                (fun day =>
                  "- " ++ dateStr day ++ ": " ++
                    String.intercalate ", "
                      (((demands.filter (shortfallDemand employees shifts)).filter
                          (fun dm => dm.date = day)).map
                        (shortEntry employees shifts))))) ∧
      List.Chain' (fun a b => dateLtB a b = true)
        (sortedDedup ((demands.filter (shortfallDemand employees shifts)).map
          (·.date))) ∧
      (∀ d : Date,
        d ∈ sortedDedup ((demands.filter (shortfallDemand employees shifts)).map
            (·.date)) ↔
          ∃ dm ∈ demands, shortfallDemand employees shifts dm = true ∧
            dm.date = d)) := by
  refine ⟨?_, ?_, ?_⟩
  · intro employees shifts status sol
    simp [solve_schedule]
  · intro employees demands shifts status sol hne hst
    have hempty : demands.isEmpty = false := by
      simpa [List.isEmpty_iff] using hne
    simp [solve_schedule, hempty, hst]
  · intro employees demands shifts
    refine ⟨?_, ?_, chain'_sortedDedup _, ?_⟩
    · intro h
      simp [infeasReport, h]
    · intro h
      have hempty : (demands.filter (shortfallDemand employees shifts)).isEmpty
          = false := by
        simpa [List.isEmpty_iff] using h
      simp [infeasReport, hempty]
    · intro d
      rw [mem_sortedDedup, List.mem_map]
      constructor
      · rintro ⟨dm, hdm, rfl⟩
        rcases List.mem_filter.mp hdm with ⟨hmem, hsf⟩
        exact ⟨dm, hmem, hsf, rfl⟩
      · rintro ⟨dm, hmem, hsf, rfl⟩
        exact ⟨dm, List.mem_filter.mpr ⟨hmem, hsf⟩, rfl⟩

/-- Witness for C2: two nurse demand lines (listed out of date order), no
employees and an infeasible status produce the structured shortage
report. -/
theorem c2_infeasibility_handling_witness :
    ([demandZDD2, demandZDD1] ≠ ([] : List Demand)) ∧
    statusOk .infeasible = false ∧
    solve_schedule [] [demandZDD2, demandZDD1] [("ZDD", shiftZDD)] .infeasible solAll =
      ⟨false, [],
        some (infeasReport [] [demandZDD2, demandZDD1] [("ZDD", shiftZDD)])⟩ :=
  ⟨by decide, rfl,
    c2_infeasibility_handling.2.1 [] [demandZDD2, demandZDD1]
      [("ZDD", shiftZDD)] .infeasible solAll (by decide) rfl⟩

/-- C10: the day list over which the model is built is
`collect_days demands` — the strictly date-sorted list of the distinct
dates occurring in the demand list, not the full calendar month — and the
max-consecutive-days constraint bounds windows of 7 consecutive entries
of this list by position at 6 assignments; with the sparse demand dates
2026-02-01 … 2026-02-06 and 2026-02-20 the day list has 7 entries, the
single emitted window covers them all, and its first and last dates lie
19 calendar days apart. -/
theorem c10_days_and_windows :
    (∀ demands : List Demand,
      List.Chain' (fun a b => dateLtB a b = true) (collect_days demands) ∧
      ∀ d : Date, d ∈ collect_days demands ↔ ∃ dm ∈ demands, dm.date = d) ∧
    (∀ (employees : List Employee) (days : List Date)
        (shifts : List (String × ShiftType)) (e start : Nat),
      (e, start) ∈ max_consec_windows employees days shifts →
        start + 7 ≤ days.length ∧ e < employees.length) ∧
    (collect_days sparseDemands).length = 7 ∧
    (0, 0) ∈ max_consec_windows [empN1] (collect_days sparseDemands)
        [("ZDD", shiftZDD)] ∧
    toOrdinal ((collect_days sparseDemands).getLastD dummyDate)
        - toOrdinal ((collect_days sparseDemands).headD dummyDate) = 19 := by
  refine ⟨?_, ?_, by decide, by decide, by decide⟩
  · intro demands
    refine ⟨chain'_sortedDedup _, ?_⟩
    intro d
    rw [collect_days, mem_sortedDedup, List.mem_map]
  · intro employees days shifts e start hmem
    rw [max_consec_windows] at hmem
    split at hmem
    · simp at hmem
    · next hlen =>
        rcases List.mem_flatMap.mp hmem with ⟨e', he', hin⟩
        rcases List.mem_filterMap.mp hin with ⟨s', hs', heq⟩
        rw [List.mem_range] at he' hs'
        split at heq
        · injection heq with h
          injection h with h1 h2
          subst h1
          subst h2
          omega
        · cases heq

/-- Witness for C10: on the sparse example the window `(0, 0)` is emitted
and satisfies the index bounds. -/
theorem c10_days_and_windows_witness :
    ((0, 0) ∈ max_consec_windows [empN1] (collect_days sparseDemands)
        [("ZDD", shiftZDD)]) ∧
    (0 + 7 ≤ (collect_days sparseDemands).length ∧
      0 < ([empN1] : List Employee).length) :=
  ⟨by decide,
    c10_days_and_windows.2.1 [empN1] (collect_days sparseDemands)
      [("ZDD", shiftZDD)] 0 0 (by decide)⟩

/-- C8: on every result of `solve_schedule`, every emitted assignment
pairs an employee and a shift for which the eligibility predicate holds:
decision variables exist only for eligible triples and assignments are
extracted only from existing variables. -/
theorem c8_assignments_eligible (employees : List Employee)
    (demands : List Demand) (shifts : List (String × ShiftType))
    (status : CpStatus) (sol : Nat → Nat → String → Bool) (a : Assignment)
    (ha : a ∈ (solve_schedule employees demands shifts status sol).assignments) :
    ∃ emp ∈ employees, emp.id = a.employee_id ∧ emp.name = a.name ∧
      ∃ s, lookupShift shifts a.shift_code = some s ∧
        eligible_for_shift emp s = true := by
  by_cases hd : demands.isEmpty
  · rw [solve_schedule, if_pos hd] at ha
    simp at ha
  · by_cases hst : statusOk status = true
    · rw [solve_schedule, if_neg hd] at ha
      simp only [hst, if_true] at ha
      rcases List.mem_flatMap.mp ha with ⟨dm, _hdm, hin⟩
      rcases List.mem_filterMap.mp hin with ⟨eIdx, _hrange, heq⟩
      cases hemp : employees[eIdx]? with
      | none => rw [hemp] at heq; cases heq
      | some emp =>
          rw [hemp, Option.some_bind] at heq
          split at heq
          · next hcond =>
              injection heq with h
              subst h
              rcases Bool.and_eq_true_iff.mp hcond with ⟨hvar, _⟩
              rw [hasVar, hemp] at hvar
              cases hlook : lookupShift shifts dm.shift_code with
              | none => rw [hlook] at hvar; cases hvar
              | some s =>
                  rw [hlook] at hvar
                  rcases Bool.and_eq_true_iff.mp hvar with ⟨_, helig⟩
                  exact ⟨emp, List.getElem?_mem hemp, rfl, rfl, s, rfl, helig⟩
          · cases heq
    · rw [solve_schedule, if_neg hd] at ha
      simp only [hst] at ha
      simp at ha

/-- Witness for C8: a feasible two-nurse solve; the first emitted
assignment belongs to an eligible employee. -/
theorem c8_assignments_eligible_witness :
    ((⟨⟨2026, 2, 2⟩, "ZDD", "E2", "Nurse Two"⟩ : Assignment) ∈
      (solve_schedule [empN2, empN1] [demandZDD1] [("ZDD", shiftZDD)]
        .optimal solAll).assignments) ∧
    (∃ emp ∈ [empN2, empN1], emp.id = "E2" ∧ emp.name = "Nurse Two" ∧
      ∃ s, lookupShift [("ZDD", shiftZDD)] "ZDD" = some s ∧
        eligible_for_shift emp s = true) :=
  ⟨by decide,
    c8_assignments_eligible [empN2, empN1] [demandZDD1] [("ZDD", shiftZDD)]
      .optimal solAll ⟨⟨2026, 2, 2⟩, "ZDD", "E2", "Nurse Two"⟩ (by decide)⟩

/-- C3 counterexample: `solve_schedule` applies no sort on emit. With the
eligible nurses listed as `E2` before `E1` and a single demand line, the
emitted list is `[... E2 ..., ... E1 ...]`, whose adjacent pair violates
the `(date, shift_code, employee_id)` order, so the output is not sorted
lexicographically. -/
theorem c3_unsorted_output_counterexample :
    (solve_schedule [empN2, empN1] [demandZDD1] [("ZDD", shiftZDD)]
        .optimal solAll).assignments =
      [⟨⟨2026, 2, 2⟩, "ZDD", "E2", "Nurse Two"⟩,
       ⟨⟨2026, 2, 2⟩, "ZDD", "E1", "Nurse One"⟩] ∧
    assignLeB ⟨⟨2026, 2, 2⟩, "ZDD", "E2", "Nurse Two"⟩
        ⟨⟨2026, 2, 2⟩, "ZDD", "E1", "Nurse One"⟩ = false := by
  exact ⟨by decide, by decide⟩

/-- Pairwise order of a `flatMap`: each block ordered, and any element of
an earlier block below any element of a later block. -/
theorem pairwise_flatMap_of {α β : Type} {R : α → α → Prop}
    {S : β → β → Prop} {l : List α} (f : α → List β)
    (h : List.Pairwise R l) (hin : ∀ a ∈ l, List.Pairwise S (f a))
    (hcross : ∀ a b, R a b → ∀ x ∈ f a, ∀ y ∈ f b, S x y) :
    List.Pairwise S (l.flatMap f) := by
  induction l with
  | nil => simp
  | cons a as ih =>
      rw [List.flatMap_cons, List.pairwise_append]
      rcases List.pairwise_cons.mp h with ⟨hra, htail⟩
      refine ⟨hin a (List.mem_cons_self a as),
        ih htail (fun b hb => hin b (List.mem_cons_of_mem a hb)), ?_⟩
      intro x hx y hy
      rcases List.mem_flatMap.mp hy with ⟨b, hb, hyb⟩
      exact hcross a b (hra b hb) x hx y hyb

/-- Shape of a successful entry of one demand's extraction block. -/
theorem mem_extract_block {employees : List Employee} {days : List Date}
    {shifts : List (String × ShiftType)} {sol : Nat → Nat → String → Bool}
    {dm : Demand} {dIdx : Nat} {x : Assignment} {i : Nat}
    (hxe : ((employees[i]?).bind (fun emp =>
        if hasVar employees days shifts i dIdx dm.shift_code
            && sol i dIdx dm.shift_code then
          some ⟨dm.date, dm.shift_code, emp.id, emp.name⟩
        else none)) = some x) :
    ∃ emp, employees[i]? = some emp ∧
      x = ⟨dm.date, dm.shift_code, emp.id, emp.name⟩ := by
  rcases Option.bind_eq_some.mp hxe with ⟨emp, hempi, hg⟩
  split at hg
  · injection hg with h
    exact ⟨emp, hempi, h.symm⟩
  · cases hg

/-- C3 (amended): `solve_schedule` emits assignments by iterating the
demand list in its given order and, per demand, the employees in input
order, with no final sort; consequently the emitted list is sorted
lexicographically by `(date, shift_code, employee_id)` whenever the
demand list is strictly sorted by `(date, shift_code)` and the employee
list is sorted by id — but not for arbitrary inputs. -/
theorem c3_emission_order (employees : List Employee) (demands : List Demand)
    (shifts : List (String × ShiftType)) (status : CpStatus)
    (sol : Nat → Nat → String → Bool)
    (hdem : demands.Pairwise (fun d1 d2 => demandKeyLtB d1 d2 = true))
    (hemp : employees.Pairwise (fun e1 e2 => strLeB e1.id e2.id = true)) :
    List.Pairwise (fun a b => assignLeB a b = true)
      (solve_schedule employees demands shifts status sol).assignments := by
  by_cases hd : demands.isEmpty
  · rw [solve_schedule, if_pos hd]
    simp
  · by_cases hst : statusOk status = true
    · rw [solve_schedule, if_neg hd]
      simp only [hst, if_true]
      simp only [extractAssignments]
      refine pairwise_flatMap_of _ hdem ?_ ?_
      · intro dm _
        refine List.Pairwise.filterMap _ ?_
          (List.pairwise_lt_range employees.length)
        intro i j hij x hx y hy
        rw [Option.mem_def] at hx hy
        rcases mem_extract_block hx with ⟨e1, he1, rfl⟩
        rcases mem_extract_block hy with ⟨e2, he2, rfl⟩
        rcases List.getElem?_eq_some_iff.mp he1 with ⟨hi1, hg1⟩
        rcases List.getElem?_eq_some_iff.mp he2 with ⟨hi2, hg2⟩
        have hle : strLeB e1.id e2.id = true := by
          have := List.pairwise_iff_getElem.mp hemp i j hi1 hi2 hij
          rwa [hg1, hg2] at this
        simp [assignLeB, hle]
      · intro dm1 dm2 hR x hx y hy
        rcases List.mem_filterMap.mp hx with ⟨i, _, hxe⟩
        rcases List.mem_filterMap.mp hy with ⟨j, _, hye⟩
        rcases mem_extract_block hxe with ⟨e1, _, rfl⟩
        rcases mem_extract_block hye with ⟨e2, _, rfl⟩
        rcases Bool.or_eq_true_iff.mp hR with hdt | hboth
        · simp [assignLeB, hdt]
        · rcases Bool.and_eq_true_iff.mp hboth with ⟨hde, hcl⟩
          simp [assignLeB, hde, hcl]
    · rw [solve_schedule, if_neg hd]
      simp only [hst]
      simp

/-- Witness for C3: employees listed in id order and date-sorted demand
lines yield a sorted output. -/
theorem c3_emission_order_witness :
    ([demandZDD1, demandZDD2].Pairwise
      (fun d1 d2 => demandKeyLtB d1 d2 = true)) ∧
    ([empN1, empN2].Pairwise (fun e1 e2 => strLeB e1.id e2.id = true)) ∧
    List.Pairwise (fun a b => assignLeB a b = true)
      (solve_schedule [empN1, empN2] [demandZDD1, demandZDD2]
        [("ZDD", shiftZDD)] .optimal solAll).assignments :=
  ⟨by decide, by decide,
    c3_emission_order [empN1, empN2] [demandZDD1, demandZDD2]
      [("ZDD", shiftZDD)] .optimal solAll (by decide) (by decide)⟩

end Scheduler

